import Mathlib

/-!
# Verification of the smtp-server change-detection core

Shallow embedding of the mail-watcher repository: the bounded FIFO
deduplication cache (`trackProcessed` in `GmailApiPollingService` and
`OutlookGraphPollingService`), the poll loops (`pollInbox`), the IMAP
cursor scan (`MailService.handleNewMessages`), the scan-guard scheduling,
the Graph token cache (`getAccessToken`), and the module-initialization
error paths.  Identifiers are `String`s as in the source; JavaScript
falsiness of a missing or empty string id is modelled explicitly.
-/

/-! ## DedupCache: `processedQueue` / `processedSet` and `trackProcessed`

From `gmail-api.service.ts` (identical in both polling services):

```ts
private trackProcessed(id: string) {
  if (!this.config || this.processedSet.has(id)) { return; }
  this.processedSet.add(id);
  this.processedQueue.push(id);
  while (this.processedQueue.length > this.config.processedCache) {
    const oldest = this.processedQueue.shift();
    if (oldest) { this.processedSet.delete(oldest); }
  }
}
```

The JS `Set` is modelled as a `Finset String`, the array as a `List`.
The `!this.config` early return only fires before initialization and is
not modelled (the capacity is a parameter).  Note that `if (oldest)` is
false for the empty string, so evicting `""` skips the set delete. -/

structure DedupState where
  processedQueue : List String
  processedSet : Finset String

def DedupState.empty : DedupState := ⟨[], ∅⟩

/-- The `while (queue.length > cap)` eviction loop: shift the oldest
entry off the front and delete it from the set — unless it is falsy
(the empty string), in which case `if (oldest)` skips the delete. -/
def evictOldest (cap : Nat) : List String → Finset String → List String × Finset String
  | [], s => ([], s)
  | oldest :: rest, s =>
    if (oldest :: rest).length > cap then
      evictOldest cap rest (if oldest = "" then s else s.erase oldest)
    else (oldest :: rest, s)

/-- `trackProcessed(id)`: no-op when `id` is already in the set mirror;
otherwise add to the set, push onto the queue, and run the eviction loop. -/
def trackProcessed (cap : Nat) (st : DedupState) (id : String) : DedupState :=
  if id ∈ st.processedSet then st
  else
    let qs := evictOldest cap (st.processedQueue ++ [id]) (insert id st.processedSet)
    ⟨qs.1, qs.2⟩

/-- A sequence of `trackProcessed` calls. -/
def runTrack (cap : Nat) (st : DedupState) (ops : List String) : DedupState :=
  ops.foldl (trackProcessed cap) st

/-- Well-formedness maintained by the cache when no falsy (empty-string)
identifier is ever inserted. -/
def DedupInv (cap : Nat) (st : DedupState) : Prop :=
  st.processedQueue.Nodup ∧
  (∀ x, x ∈ st.processedSet ↔ x ∈ st.processedQueue) ∧
  st.processedQueue.length ≤ cap ∧
  "" ∉ st.processedQueue

theorem evictOldest_props (cap : Nat) :
    ∀ (q : List String) (s : Finset String),
      q.Nodup → (∀ x, x ∈ s ↔ x ∈ q) → "" ∉ q →
      (evictOldest cap q s).1.length ≤ cap ∧
      (∀ x, x ∈ (evictOldest cap q s).2 ↔ x ∈ (evictOldest cap q s).1) ∧
      (evictOldest cap q s).1 <:+ q ∧
      (evictOldest cap q s).1.Nodup ∧
      "" ∉ (evictOldest cap q s).1 := by
  intro q
  induction q with
  | nil =>
    intro s _ hmem _
    simp only [evictOldest]
    exact ⟨Nat.zero_le _, hmem, List.nil_suffix, List.nodup_nil, List.not_mem_nil _⟩
  | cons oldest rest ih =>
    intro s hnd hmem hne
    have hone : oldest ≠ "" := fun h => hne (h ▸ List.mem_cons_self _ _)
    have hrest_ne : "" ∉ rest := fun h => hne (List.mem_cons_of_mem _ h)
    have hnd_rest : rest.Nodup := hnd.of_cons
    have holdest_not : oldest ∉ rest := (List.nodup_cons.mp hnd).1
    by_cases hlen : (oldest :: rest).length > cap
    · have hstep : evictOldest cap (oldest :: rest) s
          = evictOldest cap rest (if oldest = "" then s else s.erase oldest) := by
        simp only [evictOldest]
        rw [if_pos hlen]
      rw [hstep, if_neg hone]
      have hmem' : ∀ x, x ∈ s.erase oldest ↔ x ∈ rest := by
        intro x
        rw [Finset.mem_erase, hmem x]
        constructor
        · rintro ⟨hxo, hx⟩
          rcases List.mem_cons.mp hx with h | h
          · exact absurd h hxo
          · exact h
        · intro hx
          exact ⟨fun h => holdest_not (h ▸ hx), List.mem_cons_of_mem _ hx⟩
      have := ih (s.erase oldest) hnd_rest hmem' hrest_ne
      exact ⟨this.1, this.2.1, this.2.2.1.trans (List.suffix_cons oldest rest),
        this.2.2.2.1, this.2.2.2.2⟩
    · have hstep : evictOldest cap (oldest :: rest) s = (oldest :: rest, s) := by
        simp only [evictOldest]
        rw [if_neg hlen]
      rw [hstep]
      exact ⟨Nat.le_of_not_lt hlen, hmem, List.suffix_refl _, hnd, hne⟩

/-- One `trackProcessed` call preserves the invariant, and the new queue is
either unchanged (duplicate id) or a suffix of the old queue with the new id
appended — i.e. every eviction removes elements from the front (earliest
inserted first). -/
theorem trackProcessed_step (cap : Nat) (st : DedupState) (id : String)
    (hinv : DedupInv cap st) (hne : id ≠ "") :
    DedupInv cap (trackProcessed cap st id) ∧
    ((trackProcessed cap st id).processedQueue = st.processedQueue ∨
      (trackProcessed cap st id).processedQueue <:+ st.processedQueue ++ [id]) := by
  obtain ⟨hnd, hmem, hlen, hq_ne⟩ := hinv
  unfold trackProcessed
  by_cases hdup : id ∈ st.processedSet
  · rw [if_pos hdup]
    exact ⟨⟨hnd, hmem, hlen, hq_ne⟩, Or.inl rfl⟩
  · rw [if_neg hdup]
    have hid_notin : id ∉ st.processedQueue := fun h => hdup ((hmem id).mpr h)
    have hnd2 : (st.processedQueue ++ [id]).Nodup := by
      rw [List.nodup_append]
      refine ⟨hnd, List.nodup_singleton id, ?_⟩
      intro a ha hb
      rw [List.mem_singleton] at hb
      exact hid_notin (hb ▸ ha)
    have hmem2 : ∀ x, x ∈ insert id st.processedSet ↔ x ∈ st.processedQueue ++ [id] := by
      intro x
      rw [Finset.mem_insert, hmem x, List.mem_append, List.mem_singleton, or_comm]
    have hne2 : "" ∉ st.processedQueue ++ [id] := by
      rw [List.mem_append, List.mem_singleton]
      rintro (h | h)
      · exact hq_ne h
      · exact hne h.symm
    have h := evictOldest_props cap (st.processedQueue ++ [id])
      (insert id st.processedSet) hnd2 hmem2 hne2
    exact ⟨⟨h.2.2.2.1, h.2.1, h.1, h.2.2.2.2⟩, Or.inr h.2.2.1⟩

theorem runTrack_inv (cap : Nat) (ops : List String)
    (hne : ∀ id ∈ ops, id ≠ "") (st : DedupState) (hinv : DedupInv cap st) :
    DedupInv cap (runTrack cap st ops) := by
  induction ops generalizing st with
  | nil => exact hinv
  | cons o rest ih =>
    have h := trackProcessed_step cap st o hinv (hne o (List.mem_cons_self _ _))
    exact ih (fun i hi => hne i (List.mem_cons_of_mem _ hi)) _ h.1

theorem dedupInv_empty (cap : Nat) : DedupInv cap DedupState.empty := by
  refine ⟨List.nodup_nil, ?_, Nat.zero_le _, List.not_mem_nil ""⟩
  intro x
  simp [DedupState.empty]

/-- C3 (counterexample): with capacity 1, inserting the empty string and then
`"a"` evicts `""` from the queue but — because `if (oldest)` treats `""` as
falsy — leaves it in the set mirror, so the set and the queue no longer
contain the same elements and the set holds 2 > 1 elements. -/
theorem dedup_empty_id_counterexample :
    "" ∈ (runTrack 1 DedupState.empty ["", "a"]).processedSet ∧
    "" ∉ (runTrack 1 DedupState.empty ["", "a"]).processedQueue ∧
    (runTrack 1 DedupState.empty ["", "a"]).processedSet.card = 2 := by
  decide

/-- C3 (amended): for every sequence of `trackProcessed` insertions of
non-empty identifiers, after each operation the queue length never exceeds the
capacity, the set mirror and the queue contain exactly the same elements, and
each call either leaves the queue unchanged (duplicate) or produces a suffix of
the old queue with the new id appended — evictions only remove the
earliest-inserted surviving entries (strict FIFO). -/
theorem dedup_fifo_invariants (cap : Nat) (ops : List String)
    (hne : ∀ id ∈ ops, id ≠ "") :
    ∀ pre id suf, ops = pre ++ id :: suf →
      (trackProcessed cap (runTrack cap DedupState.empty pre) id).processedQueue.length ≤ cap ∧
      (∀ x, x ∈ (trackProcessed cap (runTrack cap DedupState.empty pre) id).processedSet ↔
        x ∈ (trackProcessed cap (runTrack cap DedupState.empty pre) id).processedQueue) ∧
      ((trackProcessed cap (runTrack cap DedupState.empty pre) id).processedQueue =
          (runTrack cap DedupState.empty pre).processedQueue ∨
        (trackProcessed cap (runTrack cap DedupState.empty pre) id).processedQueue <:+
          (runTrack cap DedupState.empty pre).processedQueue ++ [id]) := by
  intro pre id suf hsplit
  have hpre_ne : ∀ i ∈ pre, i ≠ "" := by
    intro i hi
    exact hne i (hsplit ▸ List.mem_append_left _ hi)
  have hid_ne : id ≠ "" :=
    hne id (hsplit ▸ List.mem_append_right _ (List.mem_cons_self _ _))
  have hinv := runTrack_inv cap pre hpre_ne DedupState.empty (dedupInv_empty cap)
  have h := trackProcessed_step cap (runTrack cap DedupState.empty pre) id hinv hid_ne
  exact ⟨h.1.2.2.1, h.1.2.1, h.2⟩

/-- Witness for `dedup_fifo_invariants` at capacity 2 and insertions
`["a", "b", "c"]`, split at the last insertion. -/
theorem dedup_fifo_invariants_witness :
    (trackProcessed 2 (runTrack 2 DedupState.empty ["a", "b"]) "c").processedQueue.length ≤ 2 ∧
    (∀ x, x ∈ (trackProcessed 2 (runTrack 2 DedupState.empty ["a", "b"]) "c").processedSet ↔
      x ∈ (trackProcessed 2 (runTrack 2 DedupState.empty ["a", "b"]) "c").processedQueue) ∧
    ((trackProcessed 2 (runTrack 2 DedupState.empty ["a", "b"]) "c").processedQueue =
        (runTrack 2 DedupState.empty ["a", "b"]).processedQueue ∨
      (trackProcessed 2 (runTrack 2 DedupState.empty ["a", "b"]) "c").processedQueue <:+
        (runTrack 2 DedupState.empty ["a", "b"]).processedQueue ++ ["c"]) :=
  dedup_fifo_invariants 2 ["a", "b", "c"] (by decide) ["a", "b"] "c" [] rfl

/-! ## Gmail poll loop (`GmailApiPollingService.pollInbox`)

```ts
for (const entry of messages) {
  if (!entry.id || this.processedSet.has(entry.id)) { continue; }
  await this.inspectMessage(entry.id);
  this.trackProcessed(entry.id);
}
```

`entry.id` is an optional string; `!entry.id` is true when the field is
missing or the empty string.  `inspectMessage` (the per-item dispatch:
fetch metadata and emit the notification log line) is modelled as an
oracle `dispatch : String → Bool`; a rejected dispatch promise aborts
the whole loop (the exception propagates out of `pollInbox` to the cron
callback's `.catch`), so nothing after it runs in that poll. -/

structure GmailEntry where
  id : Option String

structure PollResult where
  state : DedupState
  notifs : List String
  aborted : Bool

def pollLoop (cap : Nat) (dispatch : String → Bool) :
    DedupState → List String → List GmailEntry → PollResult
  | st, notifs, [] => ⟨st, notifs, false⟩
  | st, notifs, e :: rest =>
    match e.id with
    | none => pollLoop cap dispatch st notifs rest
    | some i =>
      if i = "" ∨ i ∈ st.processedSet then pollLoop cap dispatch st notifs rest
      else if dispatch i then
        pollLoop cap dispatch (trackProcessed cap st i) (notifs ++ [i]) rest
      else ⟨st, notifs, true⟩

/-- One `pollInbox` invocation over the listed entries (the listing call
itself succeeded and returned `entries`). -/
def gmailPollInbox (cap : Nat) (dispatch : String → Bool) (st : DedupState)
    (entries : List GmailEntry) : PollResult :=
  pollLoop cap dispatch st [] entries

/-! ## Outlook poll loop (`OutlookGraphPollingService.pollInbox`)

```ts
for (const message of messages) {
  const id = message.id;
  if (!id || this.processedSet.has(id)) { continue; }
  this.logMessage(message);
  this.trackProcessed(id);
}
```

`logMessage` is synchronous logging and cannot fail; only the id field
drives the state, so a message is modelled by its optional id. -/

def outlookPollLoop (cap : Nat) :
    DedupState → List String → List (Option String) → DedupState × List String
  | st, notifs, [] => (st, notifs)
  | st, notifs, mid :: rest =>
    match mid with
    | none => outlookPollLoop cap st notifs rest
    | some i =>
      if i = "" ∨ i ∈ st.processedSet then outlookPollLoop cap st notifs rest
      else outlookPollLoop cap (trackProcessed cap st i) (notifs ++ [i]) rest

theorem pollLoop_append (cap : Nat) (dispatch : String → Bool)
    (l1 l2 : List GmailEntry) :
    ∀ (st : DedupState) (notifs : List String),
      pollLoop cap dispatch st notifs (l1 ++ l2) =
        if (pollLoop cap dispatch st notifs l1).aborted then
          pollLoop cap dispatch st notifs l1
        else
          pollLoop cap dispatch (pollLoop cap dispatch st notifs l1).state
            (pollLoop cap dispatch st notifs l1).notifs l2 := by
  induction l1 with
  | nil =>
    intro st notifs
    simp [pollLoop]
  | cons e rest ih =>
    intro st notifs
    match he : e.id with
    | none =>
      simp only [List.cons_append, pollLoop, he]
      exact ih st notifs
    | some i =>
      simp only [List.cons_append, pollLoop, he]
      by_cases hskip : i = "" ∨ i ∈ st.processedSet
      · rw [if_pos hskip, if_pos hskip]
        exact ih st notifs
      · rw [if_neg hskip, if_neg hskip]
        by_cases hd : dispatch i
        · rw [if_pos hd, if_pos hd]
          exact ih (trackProcessed cap st i) (notifs ++ [i])
        · rw [if_neg hd, if_neg hd]
          simp

/-- C5 (counterexample): a poll lists one item `"x"` whose dispatch fails;
the exception aborts the loop before `trackProcessed` runs, so `"x"` is
not inserted into the DedupCache, contrary to the claim. -/
theorem gmail_dispatch_failure_counterexample :
    (gmailPollInbox 100 (fun _ => false) DedupState.empty [⟨some "x"⟩]).aborted = true ∧
    "x" ∉ (gmailPollInbox 100 (fun _ => false) DedupState.empty [⟨some "x"⟩]).state.processedSet ∧
    (gmailPollInbox 100 (fun _ => false) DedupState.empty [⟨some "x"⟩]).notifs = [] := by
  constructor
  · rfl
  constructor
  · decide
  · rfl

/-- C5 (amended): when a dispatch fails for an item of a poll-source scan
(after a successful listing), its identifier is NOT inserted into the
DedupCache: the rejected `inspectMessage` promise aborts `pollInbox`
before `trackProcessed`, the dedup state stays as it was after the items
preceding the failure, later items are not attempted, and — since the id
is absent from the cache — the item is re-offered and retried on the
next poll rather than dropped. -/
theorem gmail_dispatch_failure_not_tracked (cap : Nat) (dispatch : String → Bool)
    (st : DedupState) (pre suf : List GmailEntry) (e : GmailEntry) (i : String)
    (hid : e.id = some i) (hne : i ≠ "")
    (hpre : (gmailPollInbox cap dispatch st pre).aborted = false)
    (hmem : i ∉ (gmailPollInbox cap dispatch st pre).state.processedSet)
    (hfail : dispatch i = false) :
    gmailPollInbox cap dispatch st (pre ++ e :: suf) =
      ⟨(gmailPollInbox cap dispatch st pre).state,
        (gmailPollInbox cap dispatch st pre).notifs, true⟩ ∧
    i ∉ (gmailPollInbox cap dispatch st (pre ++ e :: suf)).state.processedSet := by
  have hsplit := pollLoop_append cap dispatch pre (e :: suf) st []
  unfold gmailPollInbox at *
  rw [hsplit, if_neg (by rw [hpre]; exact Bool.false_ne_true)]
  have hstep : pollLoop cap dispatch (pollLoop cap dispatch st [] pre).state
      (pollLoop cap dispatch st [] pre).notifs (e :: suf) =
      ⟨(pollLoop cap dispatch st [] pre).state,
        (pollLoop cap dispatch st [] pre).notifs, true⟩ := by
    simp only [pollLoop, hid]
    rw [if_neg (by push_neg; exact ⟨hne, hmem⟩), if_neg (by rw [hfail]; exact Bool.false_ne_true)]
  rw [hstep]
  exact ⟨rfl, hmem⟩

/-- Witness for `gmail_dispatch_failure_not_tracked`: items `a` then `x`
then `b`; dispatch fails exactly on `x`. -/
theorem gmail_dispatch_failure_not_tracked_witness :
    gmailPollInbox 2 (fun i => i != "x") DedupState.empty
        [⟨some "a"⟩, ⟨some "x"⟩, ⟨some "b"⟩] =
      ⟨(gmailPollInbox 2 (fun i => i != "x") DedupState.empty [⟨some "a"⟩]).state,
        (gmailPollInbox 2 (fun i => i != "x") DedupState.empty [⟨some "a"⟩]).notifs, true⟩ ∧
    "x" ∉ (gmailPollInbox 2 (fun i => i != "x") DedupState.empty
        [⟨some "a"⟩, ⟨some "x"⟩, ⟨some "b"⟩]).state.processedSet := by
  have h := gmail_dispatch_failure_not_tracked 2 (fun i => i != "x") DedupState.empty
    [⟨some "a"⟩] [⟨some "b"⟩] ⟨some "x"⟩ "x" rfl (by decide) (by decide) (by decide) (by decide)
  simpa using h

/-- C8 (counterexample): with capacity 2 and polls [A,B], [B,C], [A,D]
(every dispatch succeeding), the code emits FIVE notifications
A, B, C, A, D — not the four A, B, C, D the claim states. -/
theorem poll_scenarioC_counterexample :
    (gmailPollInbox 2 (fun _ => true) DedupState.empty
          [⟨some "A"⟩, ⟨some "B"⟩]).notifs ++
      (gmailPollInbox 2 (fun _ => true)
          (gmailPollInbox 2 (fun _ => true) DedupState.empty
            [⟨some "A"⟩, ⟨some "B"⟩]).state
          [⟨some "B"⟩, ⟨some "C"⟩]).notifs ++
      (gmailPollInbox 2 (fun _ => true)
          (gmailPollInbox 2 (fun _ => true)
            (gmailPollInbox 2 (fun _ => true) DedupState.empty
              [⟨some "A"⟩, ⟨some "B"⟩]).state
            [⟨some "B"⟩, ⟨some "C"⟩]).state
          [⟨some "A"⟩, ⟨some "D"⟩]).notifs ≠ ["A", "B", "C", "D"] := by
  decide

/-- C8 (amended): in the capacity-2 scenario with polls [A,B], [B,C], [A,D]
and all dispatches succeeding, exactly five notifications occur, in order
A, B, C, A, D: A is re-notified on the third poll because inserting C on
the second poll evicted A (FIFO, first inserted), as witnessed by A being
absent from the dedup set after the second poll. -/
theorem poll_scenarioC_five_notifications :
    (gmailPollInbox 2 (fun _ => true) DedupState.empty
          [⟨some "A"⟩, ⟨some "B"⟩]).notifs ++
      (gmailPollInbox 2 (fun _ => true)
          (gmailPollInbox 2 (fun _ => true) DedupState.empty
            [⟨some "A"⟩, ⟨some "B"⟩]).state
          [⟨some "B"⟩, ⟨some "C"⟩]).notifs ++
      (gmailPollInbox 2 (fun _ => true)
          (gmailPollInbox 2 (fun _ => true)
            (gmailPollInbox 2 (fun _ => true) DedupState.empty
              [⟨some "A"⟩, ⟨some "B"⟩]).state
            [⟨some "B"⟩, ⟨some "C"⟩]).state
          [⟨some "A"⟩, ⟨some "D"⟩]).notifs = ["A", "B", "C", "A", "D"] ∧
    "A" ∉ (gmailPollInbox 2 (fun _ => true)
        (gmailPollInbox 2 (fun _ => true) DedupState.empty
          [⟨some "A"⟩, ⟨some "B"⟩]).state
        [⟨some "B"⟩, ⟨some "C"⟩]).state.processedSet := by
  constructor
  · rfl
  · decide

/-! ## C10: items with a missing or empty id are skipped entirely -/

/-- `!entry.id` in JS: the Gmail entry has a usable id iff the field is
present and non-empty. -/
def hasUsableId (e : GmailEntry) : Bool :=
  match e.id with
  | none => false
  | some i => i != ""

/-- Same test for an Outlook Graph message's optional id. -/
def usableOptId (mid : Option String) : Bool :=
  match mid with
  | none => false
  | some i => i != ""

theorem pollLoop_filter_usable (cap : Nat) (dispatch : String → Bool) :
    ∀ (l : List GmailEntry) (st : DedupState) (notifs : List String),
      pollLoop cap dispatch st notifs l =
        pollLoop cap dispatch st notifs (l.filter hasUsableId) := by
  intro l
  induction l with
  | nil => intro st notifs; rfl
  | cons e rest ih =>
    intro st notifs
    match he : e.id with
    | none =>
      have hf : hasUsableId e = false := by simp [hasUsableId, he]
      rw [List.filter_cons_of_neg (by rw [hf]; exact Bool.false_ne_true)]
      simp only [pollLoop, he]
      exact ih st notifs
    | some i =>
      by_cases hi : i = ""
      · have hf : hasUsableId e = false := by simp [hasUsableId, he, hi]
        rw [List.filter_cons_of_neg (by rw [hf]; exact Bool.false_ne_true)]
        simp only [pollLoop, he]
        rw [if_pos (Or.inl hi)]
        exact ih st notifs
      · have hf : hasUsableId e = true := by simp [hasUsableId, he, hi]
        rw [List.filter_cons_of_pos hf]
        simp only [pollLoop, he]
        by_cases hskip : i = "" ∨ i ∈ st.processedSet
        · rw [if_pos hskip, if_pos hskip]
          exact ih st notifs
        · rw [if_neg hskip, if_neg hskip]
          by_cases hd : dispatch i
          · rw [if_pos hd, if_pos hd]
            exact ih (trackProcessed cap st i) (notifs ++ [i])
          · rw [if_neg hd, if_neg hd]

theorem outlookPollLoop_filter_usable (cap : Nat) :
    ∀ (l : List (Option String)) (st : DedupState) (notifs : List String),
      outlookPollLoop cap st notifs l =
        outlookPollLoop cap st notifs (l.filter usableOptId) := by
  intro l
  induction l with
  | nil => intro st notifs; rfl
  | cons mid rest ih =>
    intro st notifs
    match he : mid with
    | none =>
      rw [List.filter_cons_of_neg (by simp [usableOptId])]
      simp only [outlookPollLoop]
      exact ih st notifs
    | some i =>
      by_cases hi : i = ""
      · rw [List.filter_cons_of_neg (by simp [usableOptId, hi])]
        simp only [outlookPollLoop]
        rw [if_pos (Or.inl hi)]
        exact ih st notifs
      · rw [List.filter_cons_of_pos (by simp [usableOptId, hi])]
        simp only [outlookPollLoop]
        by_cases hskip : i = "" ∨ i ∈ st.processedSet
        · rw [if_pos hskip, if_pos hskip]
          exact ih st notifs
        · rw [if_neg hskip, if_neg hskip]
          exact ih (trackProcessed cap st i) (notifs ++ [i])

theorem pollLoop_notifs_ne_empty (cap : Nat) (dispatch : String → Bool) :
    ∀ (l : List GmailEntry) (st : DedupState) (notifs : List String),
      (∀ i ∈ notifs, i ≠ "") →
      ∀ i ∈ (pollLoop cap dispatch st notifs l).notifs, i ≠ "" := by
  intro l
  induction l with
  | nil => intro st notifs hacc; exact hacc
  | cons e rest ih =>
    intro st notifs hacc
    match he : e.id with
    | none =>
      simp only [pollLoop, he]
      exact ih st notifs hacc
    | some i =>
      simp only [pollLoop, he]
      by_cases hskip : i = "" ∨ i ∈ st.processedSet
      · rw [if_pos hskip]
        exact ih st notifs hacc
      · rw [if_neg hskip]
        have hi : i ≠ "" := fun h => hskip (Or.inl h)
        by_cases hd : dispatch i
        · rw [if_pos hd]
          refine ih (trackProcessed cap st i) (notifs ++ [i]) ?_
          intro j hj
          rcases List.mem_append.mp hj with h | h
          · exact hacc j h
          · rw [List.mem_singleton] at h
            exact h ▸ hi
        · rw [if_neg hd]
          exact hacc

theorem outlookPollLoop_notifs_ne_empty (cap : Nat) :
    ∀ (l : List (Option String)) (st : DedupState) (notifs : List String),
      (∀ i ∈ notifs, i ≠ "") →
      ∀ i ∈ (outlookPollLoop cap st notifs l).2, i ≠ "" := by
  intro l
  induction l with
  | nil => intro st notifs hacc; exact hacc
  | cons mid rest ih =>
    intro st notifs hacc
    match he : mid with
    | none =>
      simp only [outlookPollLoop]
      exact ih st notifs hacc
    | some i =>
      simp only [outlookPollLoop]
      by_cases hskip : i = "" ∨ i ∈ st.processedSet
      · rw [if_pos hskip]
        exact ih st notifs hacc
      · rw [if_neg hskip]
        have hi : i ≠ "" := fun h => hskip (Or.inl h)
        refine ih (trackProcessed cap st i) (notifs ++ [i]) ?_
        intro j hj
        rcases List.mem_append.mp hj with h | h
        · exact hacc j h
        · rw [List.mem_singleton] at h
          exact h ▸ hi

/-- C10: in both poll services, a listed item whose identifier field is
missing or empty is skipped entirely: the scan computes exactly what it
computes on the listing with those items removed (so they are never
dispatched and never inserted into the DedupCache), and every emitted
notification carries a non-empty identifier. -/
theorem falsy_id_skipped_entirely (cap : Nat) (dispatch : String → Bool)
    (st : DedupState) (entries : List GmailEntry) (mids : List (Option String)) :
    gmailPollInbox cap dispatch st entries =
      gmailPollInbox cap dispatch st (entries.filter hasUsableId) ∧
    outlookPollLoop cap st [] mids =
      outlookPollLoop cap st [] (mids.filter usableOptId) ∧
    (∀ i ∈ (gmailPollInbox cap dispatch st entries).notifs, i ≠ "") ∧
    (∀ i ∈ (outlookPollLoop cap st [] mids).2, i ≠ "") :=
  ⟨pollLoop_filter_usable cap dispatch entries st [],
    outlookPollLoop_filter_usable cap mids st [],
    pollLoop_notifs_ne_empty cap dispatch entries st []
      (by intro i hi; exact absurd hi (List.not_mem_nil i)),
    outlookPollLoop_notifs_ne_empty cap mids st []
      (by intro i hi; exact absurd hi (List.not_mem_nil i))⟩

/-- Witness for `falsy_id_skipped_entirely`: a listing with a missing id, an
empty id and the id `"a"` behaves exactly like the listing `["a"]`, and the
one notification emitted is non-empty. -/
theorem falsy_id_skipped_entirely_witness :
    gmailPollInbox 1 (fun _ => true) DedupState.empty
        [⟨none⟩, ⟨some ""⟩, ⟨some "a"⟩] =
      gmailPollInbox 1 (fun _ => true) DedupState.empty [⟨some "a"⟩] ∧
    outlookPollLoop 1 DedupState.empty [] [none, some "", some "a"] =
      outlookPollLoop 1 DedupState.empty [] [some "a"] ∧
    "a" ≠ "" := by
  have h := falsy_id_skipped_entirely 1 (fun _ => true) DedupState.empty
    [⟨none⟩, ⟨some ""⟩, ⟨some "a"⟩] [none, some "", some "a"]
  refine ⟨?_, ?_, h.2.2.1 "a" (by decide)⟩
  · have := h.1
    simpa [hasUsableId] using this
  · have := h.2.1
    simpa [usableOptId] using this

/-! ## IMAP push source (`MailService.handleNewMessages`)

```ts
const startUid = this.lastProcessedUid + 1;
if (!mailbox.exists || startUid > (mailbox.uidNext || 0)) { return; }
for await (const message of iterator) {
  if (!message.envelope || !message.uid || message.uid <= this.lastProcessedUid) {
    continue;
  }
  await this.sendNotification(config, message.envelope);
  this.lastProcessedUid = message.uid;
}
```

`sendNotification` (SMTP dispatch) is an oracle `dispatch`; a rejected
promise aborts the `for await` loop — the error propagates to the
`exists`-handler's `.catch` — leaving the cursor where it was after
the last successful item.  `!message.uid` is modelled by `uid = 0`
(UIDs are positive); the fetched list is an arbitrary backend response. -/

structure MessageEnvelope where
  fromName : Option String
  fromAddress : Option String
  subject : Option String
deriving DecidableEq

structure FetchMessage where
  envelope : Option MessageEnvelope
  uid : Nat
deriving DecidableEq

structure ScanResult where
  lastProcessedUid : Nat
  notifs : List Nat
  attempts : List Nat
  aborted : Bool
deriving DecidableEq

def handleLoop (dispatch : FetchMessage → Bool) :
    Nat → List Nat → List Nat → List FetchMessage → ScanResult
  | last, notifs, attempts, [] => ⟨last, notifs, attempts, false⟩
  | last, notifs, attempts, m :: rest =>
    if m.envelope = none ∨ m.uid = 0 ∨ m.uid ≤ last then
      handleLoop dispatch last notifs attempts rest
    else if dispatch m then
      handleLoop dispatch m.uid (notifs ++ [m.uid]) (attempts ++ [m.uid]) rest
    else ⟨last, notifs, attempts ++ [m.uid], true⟩

structure MailboxInfo where
  existsCount : Nat
  uidNext : Option Nat
deriving DecidableEq

/-- One `handleNewMessages` scan: the early returns (`!this.imapClient`,
`!mailbox`, empty mailbox, nothing past the cursor) followed by the
fetch loop over the backend's response `fetched`. -/
def handleNewMessages (dispatch : FetchMessage → Bool) (mailbox : Option MailboxInfo)
    (fetched : List FetchMessage) (last : Nat) : ScanResult :=
  match mailbox with
  | none => ⟨last, [], [], false⟩
  | some mb =>
    if mb.existsCount = 0 ∨ last + 1 > mb.uidNext.getD 0 then ⟨last, [], [], false⟩
    else handleLoop dispatch last [] [] fetched

/-- One scan's inputs: the mailbox snapshot, the backend's fetch response
and the dispatch outcome for each message. -/
structure ScanInput where
  mailbox : Option MailboxInfo
  fetched : List FetchMessage
  dispatch : FetchMessage → Bool

/-- The cursor after a sequence of scans, starting from cursor `c0`. -/
def runScans (c0 : Nat) (scans : List ScanInput) : Nat :=
  scans.foldl
    (fun last s => (handleNewMessages s.dispatch s.mailbox s.fetched last).lastProcessedUid) c0

theorem handleLoop_chain (dispatch : FetchMessage → Bool) :
    ∀ (l : List FetchMessage) (last : Nat) (notifs attempts : List Nat),
      last ≤ (handleLoop dispatch last notifs attempts l).lastProcessedUid ∧
      ∃ ns, (handleLoop dispatch last notifs attempts l).notifs = notifs ++ ns ∧
        List.Chain' (· < ·) (last :: ns) ∧
        (handleLoop dispatch last notifs attempts l).lastProcessedUid = ns.getLastD last := by
  intro l
  induction l with
  | nil =>
    intro last notifs attempts
    refine ⟨Nat.le_refl _, [], ?_, ?_, rfl⟩
    · simp [handleLoop]
    · simp
  | cons m rest ih =>
    intro last notifs attempts
    by_cases hskip : m.envelope = none ∨ m.uid = 0 ∨ m.uid ≤ last
    · have hstep : handleLoop dispatch last notifs attempts (m :: rest) =
          handleLoop dispatch last notifs attempts rest := by
        simp only [handleLoop]
        rw [if_pos hskip]
      rw [hstep]
      exact ih last notifs attempts
    · have hgt : last < m.uid := by
        rcases Nat.lt_or_ge last m.uid with h | h
        · exact h
        · exact absurd (Or.inr (Or.inr h)) hskip
      by_cases hd : dispatch m
      · have hstep : handleLoop dispatch last notifs attempts (m :: rest) =
            handleLoop dispatch m.uid (notifs ++ [m.uid]) (attempts ++ [m.uid]) rest := by
          simp only [handleLoop]
          rw [if_neg hskip, if_pos hd]
        rw [hstep]
        obtain ⟨hle, ns', hns', hchain', hlastd⟩ := ih m.uid (notifs ++ [m.uid]) (attempts ++ [m.uid])
        refine ⟨Nat.le_of_lt (Nat.lt_of_lt_of_le hgt hle), m.uid :: ns', ?_, ?_, ?_⟩
        · rw [hns', List.append_assoc]
          rfl
        · exact List.Chain'.cons hgt hchain'
        · rw [hlastd, List.getLastD_cons]
      · have hstep : handleLoop dispatch last notifs attempts (m :: rest) =
            ⟨last, notifs, attempts ++ [m.uid], true⟩ := by
          simp only [handleLoop]
          rw [if_neg hskip, if_neg hd]
        rw [hstep]
        refine ⟨Nat.le_refl _, [], ?_, ?_, rfl⟩
        · simp
        · simp

/-- C1: across every sequence of scans of the push-subscribed source, the
cursor (`lastProcessedUid`) is non-decreasing, and within any scan the
dispatched uids form a strictly increasing chain above the cursor the scan
started from — so no candidate with identifier ≤ the current cursor is
ever dispatched again. -/
theorem imap_cursor_monotone_no_redispatch (c0 : Nat) (scans : List ScanInput) :
    ∀ pre s suf, scans = pre ++ s :: suf →
      runScans c0 pre ≤
        (handleNewMessages s.dispatch s.mailbox s.fetched (runScans c0 pre)).lastProcessedUid ∧
      List.Chain' (· < ·) (runScans c0 pre ::
        (handleNewMessages s.dispatch s.mailbox s.fetched (runScans c0 pre)).notifs) ∧
      ∀ u ∈ (handleNewMessages s.dispatch s.mailbox s.fetched (runScans c0 pre)).notifs,
        runScans c0 pre < u := by
  intro pre s suf _
  set c := runScans c0 pre with hc
  have hmain : c ≤ (handleNewMessages s.dispatch s.mailbox s.fetched c).lastProcessedUid ∧
      List.Chain' (· < ·) (c :: (handleNewMessages s.dispatch s.mailbox s.fetched c).notifs) := by
    match hmb : s.mailbox with
    | none =>
      simp only [handleNewMessages]
      exact ⟨Nat.le_refl _, List.chain'_singleton c⟩
    | some mb =>
      simp only [handleNewMessages]
      by_cases hgate : mb.existsCount = 0 ∨ c + 1 > mb.uidNext.getD 0
      · rw [if_pos hgate]
        exact ⟨Nat.le_refl _, List.chain'_singleton c⟩
      · rw [if_neg hgate]
        obtain ⟨hle, ns, hns, hchain, _⟩ := handleLoop_chain s.dispatch s.fetched c [] []
        rw [List.nil_append] at hns
        exact ⟨hle, hns ▸ hchain⟩
  refine ⟨hmain.1, hmain.2, ?_⟩
  intro u hu
  have hpw := List.chain'_iff_pairwise.mp hmain.2
  exact (List.pairwise_cons.mp hpw).1 u hu

def scanExampleA : ScanInput :=
  ⟨some ⟨1, some 12⟩, [⟨some ⟨none, none, none⟩, 11⟩], fun _ => true⟩

def scanExampleB : ScanInput :=
  ⟨some ⟨2, some 14⟩,
    [⟨some ⟨none, none, none⟩, 12⟩, ⟨some ⟨none, none, none⟩, 13⟩], fun _ => true⟩

/-- Witness for `imap_cursor_monotone_no_redispatch`: after a first scan
advancing the cursor from 10 to 11, the second scan keeps the cursor
non-decreasing and only dispatches uids above 11. -/
theorem imap_cursor_monotone_no_redispatch_witness :
    runScans 10 [scanExampleA] ≤
      (handleNewMessages scanExampleB.dispatch scanExampleB.mailbox scanExampleB.fetched
        (runScans 10 [scanExampleA])).lastProcessedUid ∧
    runScans 10 [scanExampleA] < 12 := by
  have h := imap_cursor_monotone_no_redispatch 10 [scanExampleA, scanExampleB]
    [scanExampleA] scanExampleB [] rfl
  exact ⟨h.1, h.2.2 12 (by decide)⟩


theorem handleLoop_takeWhile (dispatch : FetchMessage → Bool) :
    ∀ (l : List FetchMessage) (c : Nat) (notifs attempts : List Nat),
      (∀ m ∈ l, m.envelope ≠ none ∧ m.uid ≠ 0) →
      List.Chain' (· < ·) (c :: l.map FetchMessage.uid) →
      (handleLoop dispatch c notifs attempts l).notifs =
        notifs ++ (l.takeWhile dispatch).map FetchMessage.uid ∧
      (handleLoop dispatch c notifs attempts l).lastProcessedUid =
        ((l.takeWhile dispatch).map FetchMessage.uid).getLastD c ∧
      (handleLoop dispatch c notifs attempts l).attempts =
        attempts ++ (l.takeWhile dispatch ++ (l.dropWhile dispatch).take 1).map FetchMessage.uid ∧
      (handleLoop dispatch c notifs attempts l).aborted =
        !(l.dropWhile dispatch).isEmpty := by
  intro l
  induction l with
  | nil =>
    intro c notifs attempts _ _
    simp [handleLoop, List.takeWhile, List.dropWhile]
  | cons m rest ih =>
    intro c notifs attempts hvalid hchain
    obtain ⟨henv, huid⟩ := hvalid m (List.mem_cons_self _ _)
    have hchain2 : c < m.uid ∧ List.Chain' (· < ·) (m.uid :: rest.map FetchMessage.uid) := by
      rw [List.map_cons, List.chain'_cons] at hchain
      exact hchain
    have hgt : c < m.uid := hchain2.1
    have hskip : ¬(m.envelope = none ∨ m.uid = 0 ∨ m.uid ≤ c) := by
      push_neg
      exact ⟨henv, huid, hgt⟩
    by_cases hd : dispatch m
    · have hstep : handleLoop dispatch c notifs attempts (m :: rest) =
          handleLoop dispatch m.uid (notifs ++ [m.uid]) (attempts ++ [m.uid]) rest := by
        simp only [handleLoop]
        rw [if_neg hskip, if_pos hd]
      have htw : (m :: rest).takeWhile dispatch = m :: rest.takeWhile dispatch :=
        List.takeWhile_cons_of_pos hd
      have hdw : (m :: rest).dropWhile dispatch = rest.dropWhile dispatch :=
        List.dropWhile_cons_of_pos hd
      obtain ⟨h1, h2, h3, h4⟩ := ih m.uid (notifs ++ [m.uid]) (attempts ++ [m.uid])
        (fun x hx => hvalid x (List.mem_cons_of_mem _ hx)) hchain2.2
      rw [hstep, htw, hdw]
      refine ⟨?_, ?_, ?_, h4⟩
      · rw [h1, List.map_cons, List.append_assoc]
        rfl
      · rw [h2, List.map_cons, List.getLastD_cons]
      · rw [h3, List.cons_append, List.map_cons, List.append_assoc]
        rfl
    · have hstep : handleLoop dispatch c notifs attempts (m :: rest) =
          ⟨c, notifs, attempts ++ [m.uid], true⟩ := by
        simp only [handleLoop]
        rw [if_neg hskip, if_neg hd]
      have htw : (m :: rest).takeWhile dispatch = [] :=
        List.takeWhile_cons_of_neg hd
      have hdw : (m :: rest).dropWhile dispatch = m :: rest :=
        List.dropWhile_cons_of_neg hd
      rw [hstep, htw, hdw]
      refine ⟨by simp, by simp, by simp, by simp⟩

/-- C2: in a push-source scan over items with envelopes and strictly
ascending positive uids above the cursor, the notifications are exactly
the longest dispatch-succeeding prefix, the cursor ends at the last uid of
that prefix (or stays put when the prefix is empty — so it never advances
past a failing item), dispatch is attempted for that prefix plus at most
the first failing item (later items are never attempted), and the scan is
marked interrupted exactly when some dispatch failed. -/
theorem imap_dispatch_failure_stops_scan (c : Nat) (mb : MailboxInfo)
    (items : List FetchMessage) (dispatch : FetchMessage → Bool)
    (hvalid : ∀ m ∈ items, m.envelope ≠ none ∧ m.uid ≠ 0)
    (hasc : List.Chain' (· < ·) (c :: items.map FetchMessage.uid))
    (hmb : mb.existsCount ≠ 0) (hnext : c + 1 ≤ mb.uidNext.getD 0) :
    (handleNewMessages dispatch (some mb) items c).notifs =
      (items.takeWhile dispatch).map FetchMessage.uid ∧
    (handleNewMessages dispatch (some mb) items c).lastProcessedUid =
      ((items.takeWhile dispatch).map FetchMessage.uid).getLastD c ∧
    (handleNewMessages dispatch (some mb) items c).attempts =
      (items.takeWhile dispatch ++ (items.dropWhile dispatch).take 1).map FetchMessage.uid ∧
    (handleNewMessages dispatch (some mb) items c).aborted =
      !(items.dropWhile dispatch).isEmpty := by
  have hgate : ¬(mb.existsCount = 0 ∨ c + 1 > mb.uidNext.getD 0) := by
    push_neg
    exact ⟨hmb, hnext⟩
  have hunfold : handleNewMessages dispatch (some mb) items c =
      handleLoop dispatch c [] [] items := by
    simp only [handleNewMessages]
    rw [if_neg hgate]
  rw [hunfold]
  obtain ⟨h1, h2, h3, h4⟩ := handleLoop_takeWhile dispatch items c [] [] hvalid hasc
  rw [List.nil_append] at h1 h3
  exact ⟨h1, h2, h3, h4⟩

/-- Witness for `imap_dispatch_failure_stops_scan`: Scenario B — cursor 10,
items [11, 12, 13], dispatch fails on 12: the cursor ends at 11, exactly one
notification (for 11) is sent, 13 is never attempted, and the scan is
interrupted. -/
theorem imap_dispatch_failure_stops_scan_witness :
    (handleNewMessages (fun m => m.uid != 12) (some ⟨3, some 14⟩)
        [⟨some ⟨none, none, none⟩, 11⟩, ⟨some ⟨none, none, none⟩, 12⟩,
          ⟨some ⟨none, none, none⟩, 13⟩] 10).notifs = [11] ∧
    (handleNewMessages (fun m => m.uid != 12) (some ⟨3, some 14⟩)
        [⟨some ⟨none, none, none⟩, 11⟩, ⟨some ⟨none, none, none⟩, 12⟩,
          ⟨some ⟨none, none, none⟩, 13⟩] 10).lastProcessedUid = 11 ∧
    (handleNewMessages (fun m => m.uid != 12) (some ⟨3, some 14⟩)
        [⟨some ⟨none, none, none⟩, 11⟩, ⟨some ⟨none, none, none⟩, 12⟩,
          ⟨some ⟨none, none, none⟩, 13⟩] 10).attempts = [11, 12] ∧
    (handleNewMessages (fun m => m.uid != 12) (some ⟨3, some 14⟩)
        [⟨some ⟨none, none, none⟩, 11⟩, ⟨some ⟨none, none, none⟩, 12⟩,
          ⟨some ⟨none, none, none⟩, 13⟩] 10).aborted = true := by
  have h := imap_dispatch_failure_stops_scan 10 ⟨3, some 14⟩
    [⟨some ⟨none, none, none⟩, 11⟩, ⟨some ⟨none, none, none⟩, 12⟩,
      ⟨some ⟨none, none, none⟩, 13⟩] (fun m => m.uid != 12)
    (by decide) (by simp [List.chain'_cons]) (by decide) (by decide)
  exact ⟨h.1.trans (by decide), h.2.1.trans (by decide), h.2.2.1.trans (by decide),
    h.2.2.2.trans (by decide)⟩

/-! ## ScanGuard and scheduling (C4)

Push source (`MailService.startImapWatcher`):

```ts
this.imapClient.on("exists", async () => {
  if (this.processingMailbox) { return; }
  this.processingMailbox = true;
  await this.handleNewMessages(config).catch(...)
  this.processingMailbox = false;
});
```

The check-and-set runs atomically on the JS event loop (no `await`
between them), so a trigger is an atomic step: if the flag is set the
handler returns at once; otherwise it sets the flag and starts a scan
(whose first backend call is issued).  Completion (the `await` finishing,
successfully or not) clears the flag.

Poll sources (`registerCronJob`, identical in both polling services):

```ts
const job = new CronJob(expression, () => {
  this.pollInbox().catch((err) => ...);
});
```

The cron callback starts `pollInbox` unconditionally — there is no guard
flag — and `pollInbox` issues its backend listing call before its first
suspension, so every tick produces a backend call even while a previous
poll is still in flight.  An interleaving is a list of trigger/completion
events processed one at a time (single-threaded event loop). -/

inductive GuardEvent
  | trigger
  | complete
deriving DecidableEq

structure PushGuardState where
  processing : Bool
  inflight : Nat
  backendCalls : Nat
deriving DecidableEq

structure PollGuardState where
  inflight : Nat
  backendCalls : Nat
deriving DecidableEq

def pushStep (st : PushGuardState) : GuardEvent → PushGuardState
  | .trigger =>
    if st.processing then st
    else ⟨true, st.inflight + 1, st.backendCalls + 1⟩
  | .complete =>
    if st.inflight = 0 then st
    else ⟨false, st.inflight - 1, st.backendCalls⟩

def pollStep (st : PollGuardState) : GuardEvent → PollGuardState
  | .trigger => ⟨st.inflight + 1, st.backendCalls + 1⟩
  | .complete =>
    if st.inflight = 0 then st
    else ⟨st.inflight - 1, st.backendCalls⟩

def pushRun (evs : List GuardEvent) : PushGuardState :=
  evs.foldl pushStep ⟨false, 0, 0⟩

def pollRun (evs : List GuardEvent) : PollGuardState :=
  evs.foldl pollStep ⟨0, 0⟩

/-- C4 (counterexample): for a poll-driven source, a second cron tick
arriving while the first poll is still running is NOT skipped: two scans
are then in flight simultaneously and the second tick produced an
additional backend call. -/
theorem poll_unguarded_counterexample :
    (pollRun [GuardEvent.trigger]).inflight = 1 ∧
    (pollRun [GuardEvent.trigger, GuardEvent.trigger]).inflight = 2 ∧
    (pollRun [GuardEvent.trigger, GuardEvent.trigger]).backendCalls =
      (pollRun [GuardEvent.trigger]).backendCalls + 1 := by
  decide

theorem pushRun_append (evs : List GuardEvent) (e : GuardEvent) :
    pushRun (evs ++ [e]) = pushStep (pushRun evs) e := by
  unfold pushRun
  rw [List.foldl_append]
  rfl

theorem pushRun_flag_inflight (evs : List GuardEvent) :
    (pushRun evs).inflight = (if (pushRun evs).processing then 1 else 0) := by
  induction evs using List.reverseRecOn with
  | nil => rfl
  | append_singleton pre e ih =>
    rw [pushRun_append]
    match e with
    | .trigger =>
      by_cases hp : (pushRun pre).processing
      · simp [pushStep, hp, ih]
      · simp [pushStep, hp]
        rw [ih, if_neg hp]
    | .complete =>
      by_cases hz : (pushRun pre).inflight = 0
      · have hp : ¬(pushRun pre).processing = true := by
          intro hp
          rw [ih, if_pos hp] at hz
          exact one_ne_zero hz
        simp [pushStep, hz, if_neg hp]
      · have hp : (pushRun pre).processing = true := by
          by_contra hcon
          rw [ih, if_neg hcon] at hz
          exact hz rfl
        have h1 : (pushRun pre).inflight = 1 := by rw [ih, if_pos hp]
        simp [pushStep, hz, h1]

/-- C4 (amended): for the push-subscribed source, the `processingMailbox`
guard ensures at most one scan is ever in flight, and a trigger observed
while the guard is set is a complete no-op — zero additional backend
calls, no state change.  (The poll-driven sources have no such guard;
see the counterexample.) -/
theorem push_guard_mutex (evs : List GuardEvent) :
    (pushRun evs).inflight ≤ 1 ∧
    (∀ pre suf, evs = pre ++ GuardEvent.trigger :: suf →
      (pushRun pre).processing = true →
      pushRun (pre ++ [GuardEvent.trigger]) = pushRun pre) := by
  constructor
  · rw [pushRun_flag_inflight]
    by_cases hp : (pushRun evs).processing
    · rw [if_pos hp]
    · rw [if_neg hp]
      exact Nat.zero_le 1
  · intro pre _ _ hproc
    rw [pushRun_append]
    simp [pushStep, hproc]

/-- Witness for `push_guard_mutex`: two triggers with no completion in
between — the second trigger leaves the push-source state untouched. -/
theorem push_guard_mutex_witness :
    (pushRun [GuardEvent.trigger, GuardEvent.trigger]).inflight ≤ 1 ∧
    pushRun ([GuardEvent.trigger] ++ [GuardEvent.trigger]) =
      pushRun [GuardEvent.trigger] := by
  have h := push_guard_mutex [GuardEvent.trigger, GuardEvent.trigger]
  exact ⟨h.1, h.2 [GuardEvent.trigger] [] rfl (by decide)⟩

/-! ## TokenCache (`OutlookGraphPollingService.getAccessToken`)

```ts
const now = Date.now();
if (this.accessToken && now < this.accessTokenExpiresAtMs - 30_000) {
  return this.accessToken;
}
... fetch(tokenUrl, ...) ...
if (!response.ok) { throw ... }
const accessToken = body.access_token;
if (!accessToken) { throw ... }
const expiresInSec = typeof body.expires_in === "number" ? body.expires_in : 3600;
this.accessToken = accessToken;
this.accessTokenExpiresAtMs = Date.now() + expiresInSec * 1000;
return accessToken;
```

Times are integer milliseconds.  `now` is the first `Date.now()`;
`now2` the second one (after the exchange), with `now ≤ now2` where a
claim needs it.  The exchange response is a parameter; a failing
exchange (non-OK response, or missing/empty `access_token` — JS falsy,
modelled by `getD ""` yielding `""`) throws before either field is
assigned. -/

structure TokenState where
  accessToken : Option String
  accessTokenExpiresAtMs : Int
deriving DecidableEq

/-- Fresh at startup: `accessToken` unset, `accessTokenExpiresAtMs = 0`. -/
def TokenState.initial : TokenState := ⟨none, 0⟩

structure TokenResponse where
  ok : Bool
  accessTokenField : Option String
  expiresIn : Option Int
deriving DecidableEq

/-- JS truthiness of `this.accessToken && now < this.accessTokenExpiresAtMs - 30_000`. -/
def hasFreshToken (st : TokenState) (now : Int) : Bool :=
  st.accessToken.getD "" != "" && now < st.accessTokenExpiresAtMs - 30000

def getAccessToken (st : TokenState) (now : Int) (resp : TokenResponse) (now2 : Int) :
    Except String String × TokenState :=
  if hasFreshToken st now then
    (Except.ok (st.accessToken.getD ""), st)
  else if resp.ok = false then
    (Except.error "Graph token request failed", st)
  else if resp.accessTokenField.getD "" = "" then
    (Except.error "Graph token response missing access_token", st)
  else
    (Except.ok (resp.accessTokenField.getD ""),
      ⟨some (resp.accessTokenField.getD ""), now2 + resp.expiresIn.getD 3600 * 1000⟩)

/-- C6 (counterexample): a successful exchange at T0 = 0 reports a
3600-second lifetime; the call at T0 + 3550 s has 50 s ≥ the 30 s skew
margin remaining, so — contrary to the claim's scenario — it does NOT
trigger a fresh exchange: it returns the cached token unchanged (the
provided new exchange response `"tok2"` is never consulted). -/
theorem token_scenarioD_counterexample :
    (getAccessToken TokenState.initial 0 ⟨true, some "tok", some 3600⟩ 0).2 =
      ⟨some "tok", 3600000⟩ ∧
    getAccessToken ⟨some "tok", 3600000⟩ 3550000 ⟨true, some "tok2", some 3600⟩ 3550000 =
      (Except.ok "tok", ⟨some "tok", 3600000⟩) := by
  constructor
  · rw [getAccessToken, if_neg (by decide), if_neg (by decide), if_neg (by decide)]
    decide
  · rw [getAccessToken, if_pos (by decide)]
    rfl

/-- C6 (amended): `getAccessToken` returns the cached token unchanged
whenever STRICTLY more than the 30-second skew margin remains before its
stored expiry; otherwise it performs a client-credentials exchange, stores
the token with expiry `now + reported lifetime` and returns it; and —
provided every exchange reports a lifetime above the margin — it never
returns a token with less than the margin remaining.  For a 3600-second
lifetime obtained at T0, a call at T0+3550 s (50 s remaining) returns the
cached token unchanged, and a fresh exchange happens only at 30 s or less
remaining, e.g. at T0+3580 s. -/
theorem getAccessToken_freshness (st : TokenState) (now now2 : Int)
    (resp : TokenResponse) (t : String)
    (hnn : now ≤ now2) (hlife : 30000 < resp.expiresIn.getD 3600 * 1000) :
    (∀ tok, st.accessToken = some tok → tok ≠ "" →
      now < st.accessTokenExpiresAtMs - 30000 →
      getAccessToken st now resp now2 = (Except.ok tok, st)) ∧
    (hasFreshToken st now = false → resp.ok = true → resp.accessTokenField = some t →
      t ≠ "" →
      getAccessToken st now resp now2 =
        (Except.ok t, ⟨some t, now2 + resp.expiresIn.getD 3600 * 1000⟩)) ∧
    (∀ tok, (getAccessToken st now resp now2).1 = Except.ok tok →
      30000 < (getAccessToken st now resp now2).2.accessTokenExpiresAtMs - now) := by
  refine ⟨?_, ?_, ?_⟩
  · intro tok htok hne hfresh
    have hf : hasFreshToken st now = true := by
      simp [hasFreshToken, htok, hne, hfresh]
    rw [getAccessToken, if_pos hf, htok]
    rfl
  · intro hstale hok hfield hne
    rw [getAccessToken, if_neg (by rw [hstale]; exact Bool.false_ne_true),
      if_neg (by rw [hok]; exact fun hc => Bool.false_ne_true hc.symm), hfield]
    simp only [Option.getD_some]
    rw [if_neg hne]
  · intro tok hok
    by_cases hf : hasFreshToken st now = true
    · have hfresh : now < st.accessTokenExpiresAtMs - 30000 := by
        unfold hasFreshToken at hf
        have := (Bool.and_eq_true _ _).mp hf
        exact of_decide_eq_true this.2
      rw [getAccessToken, if_pos hf]
      show 30000 < st.accessTokenExpiresAtMs - now
      omega
    · rw [getAccessToken, if_neg hf] at hok ⊢
      by_cases hko : resp.ok = false
      · rw [if_pos hko] at hok
        exact absurd hok (by simp)
      · rw [if_neg hko] at hok ⊢
        by_cases ht : resp.accessTokenField.getD "" = ""
        · rw [if_pos ht] at hok
          exact absurd hok (by simp)
        · rw [if_neg ht] at hok ⊢
          show 30000 < now2 + resp.expiresIn.getD 3600 * 1000 - now
          omega

/-- Witness for `getAccessToken_freshness`: the 3600-second token obtained
at T0 = 0 is stale at T0+3580 s (20 s < margin remain), so that call
performs a fresh exchange, stores expiry 3580000 + 3600·1000 and returns
the new token with far more than the margin remaining. -/
theorem getAccessToken_freshness_witness :
    (hasFreshToken ⟨some "tok", 3600000⟩ 3580000 = false →
      (⟨true, some "tok2", some 3600⟩ : TokenResponse).ok = true →
      (⟨true, some "tok2", some 3600⟩ : TokenResponse).accessTokenField = some "tok2" →
      "tok2" ≠ "" →
      getAccessToken ⟨some "tok", 3600000⟩ 3580000 ⟨true, some "tok2", some 3600⟩ 3580000 =
        (Except.ok "tok2", ⟨some "tok2",
          3580000 + (⟨true, some "tok2", some 3600⟩ : TokenResponse).expiresIn.getD 3600 * 1000⟩)) ∧
    (∀ tok,
      (getAccessToken ⟨some "tok", 3600000⟩ 3580000 ⟨true, some "tok2", some 3600⟩ 3580000).1 =
        Except.ok tok →
      30000 <
        (getAccessToken ⟨some "tok", 3600000⟩ 3580000
          ⟨true, some "tok2", some 3600⟩ 3580000).2.accessTokenExpiresAtMs - 3580000) := by
  have h := getAccessToken_freshness ⟨some "tok", 3600000⟩ 3580000 3580000
    ⟨true, some "tok2", some 3600⟩ "tok2" (by decide) (by decide)
  exact ⟨h.2.1, h.2.2⟩

/-- C7: when the token exchange fails — non-OK response, or a missing or
empty `access_token` in the body — `getAccessToken` propagates an error
and leaves the cached token value and expiry instant unchanged, and a
subsequent call (still past the freshness window) performs the exchange
again and succeeds once the provider recovers. -/
theorem token_exchange_failure_preserves_cache (st : TokenState) (now now2 : Int)
    (resp : TokenResponse)
    (hstale : hasFreshToken st now = false)
    (hfail : resp.ok = false ∨ resp.accessTokenField = none ∨
      resp.accessTokenField = some "") :
    (∃ e, (getAccessToken st now resp now2).1 = Except.error e) ∧
    (getAccessToken st now resp now2).2 = st ∧
    (∀ now' resp' now3 t, hasFreshToken st now' = false → resp'.ok = true →
      resp'.accessTokenField = some t → t ≠ "" →
      (getAccessToken (getAccessToken st now resp now2).2 now' resp' now3).1 =
        Except.ok t) := by
  have hmain : ∃ e, getAccessToken st now resp now2 = (Except.error e, st) := by
    rw [getAccessToken, if_neg (by rw [hstale]; exact Bool.false_ne_true)]
    by_cases hko : resp.ok = false
    · rw [if_pos hko]
      exact ⟨_, rfl⟩
    · rw [if_neg hko]
      have hempty : resp.accessTokenField.getD "" = "" := by
        rcases hfail with h | h | h
        · exact absurd h hko
        · rw [h]
          rfl
        · rw [h]
          rfl
      rw [if_pos hempty]
      exact ⟨_, rfl⟩
  obtain ⟨e, he⟩ := hmain
  refine ⟨⟨e, by rw [he]⟩, by rw [he], ?_⟩
  intro now' resp' now3 t hstale' hok' hfield' hne'
  rw [he]
  show (getAccessToken st now' resp' now3).1 = Except.ok t
  rw [getAccessToken, if_neg (by rw [hstale']; exact Bool.false_ne_true),
    if_neg (by rw [hok']; exact fun hc => Bool.false_ne_true hc.symm), hfield']
  simp only [Option.getD_some]
  rw [if_neg hne']

/-- Witness for `token_exchange_failure_preserves_cache`: a near-expiry
cached token, a failed exchange (HTTP 500), then a successful retry. -/
theorem token_exchange_failure_preserves_cache_witness :
    (∃ e, (getAccessToken ⟨some "tok", 3600000⟩ 3590000
      ⟨false, none, none⟩ 3590000).1 = Except.error e) ∧
    (getAccessToken ⟨some "tok", 3600000⟩ 3590000 ⟨false, none, none⟩ 3590000).2 =
      ⟨some "tok", 3600000⟩ ∧
    (getAccessToken
      (getAccessToken ⟨some "tok", 3600000⟩ 3590000 ⟨false, none, none⟩ 3590000).2
      3595000 ⟨true, some "tok2", some 3600⟩ 3595000).1 = Except.ok "tok2" := by
  have h := token_exchange_failure_preserves_cache ⟨some "tok", 3600000⟩ 3590000 3590000
    ⟨false, none, none⟩ (by decide) (Or.inl rfl)
  exact ⟨h.1, h.2.1, h.2.2 3595000 ⟨true, some "tok2", some 3600⟩ 3595000 "tok2"
    (by decide) rfl rfl (by decide)⟩

/-! ## Module initialization and error isolation (C9)

From `mail.service.ts`:

```ts
async onModuleInit() {
  if (!this.isEnabled()) { ... return; }
  const watcherConfig = this.resolveConfig();        // throws, NOT caught
  await this.bootstrapSmtpTransport(watcherConfig);  // rethrows verify errors
  try { await this.startImapWatcher(watcherConfig); }
  catch (err) { ...log...; throw err; }              // rethrows
}
```

versus `gmail-api.service.ts` / the Outlook service:

```ts
async onModuleInit() {
  if (!this.isEnabled()) { ... return; }
  try { this.config = this.resolveConfig(); ... }
  catch (err) { this.logger.error(...); }            // swallowed
}
```

The environment is `configService.get`: a partial map from variable
names to strings.  `requireEnv` throws when the variable is absent or
empty (JS `!value`).  `appBootstrap` models the NestJS lifecycle run by
`main.ts`: `createApplicationContext` invokes every provider's
`onModuleInit`, an exception from any hook rejects application startup,
and `bootstrap().catch` then calls `process.exit(1)` — so no source is
left running.  The SMTP-verify and IMAP-connect network outcomes are
oracle booleans. -/

def EnvMap := String → Option String

/-- JS `s.trim()`: strip leading and trailing whitespace.  (Spelled out
over the character list because the library's `String.trim` does not
reduce in the kernel.) -/
def jsTrim (s : String) : String :=
  String.mk (((s.data.dropWhile Char.isWhitespace).reverse.dropWhile
    Char.isWhitespace).reverse)

/-- JS `s.toLowerCase()` (over the characters actually occurring in
configuration values). -/
def jsToLower (s : String) : String :=
  String.mk (s.data.map Char.toLower)

/-- `(raw ?? "").trim().toLowerCase() === "true"` — the enable checks
(`isEnabled`) of all three services. -/
def isEnabledValue (raw : Option String) : Bool :=
  jsToLower (jsTrim (raw.getD "")) == "true"

/-- `requireEnv(key)`: throws unless the variable is present and non-empty. -/
def requireEnv (env : EnvMap) (key : String) : Except String String :=
  if (env key).getD "" = "" then
    Except.error ("Missing required environment variable " ++ key)
  else
    Except.ok ((env key).getD "")

/-- The throwing part of `GmailApiPollingService.resolveConfig`
(the remaining settings all have defaults and cannot throw). -/
def gmailResolveConfig (env : EnvMap) : Except String (String × String × String) := do
  let clientId ← requireEnv env "GOOGLE_CLIENT_ID"
  let clientSecret ← requireEnv env "GOOGLE_CLIENT_SECRET"
  let refreshToken ← requireEnv env "GOOGLE_REFRESH_TOKEN"
  pure (clientId, clientSecret, refreshToken)

/-- `GmailApiPollingService.onModuleInit`: disabled → no-op; enabled →
`resolveConfig`, client construction and cron registration inside
`try { ... } catch (err) { this.logger.error(...) }` — every error is
swallowed, so the hook never rejects. -/
def gmailOnModuleInit (env : EnvMap) : Except String Unit :=
  if isEnabledValue (env "GMAIL_API_ENABLED") = false then Except.ok ()
  else
    match gmailResolveConfig env with
    | Except.error _ => Except.ok ()
    | Except.ok _ => Except.ok ()

/-- The throwing part of `OutlookGraphPollingService.resolveConfig`. -/
def outlookResolveConfig (env : EnvMap) :
    Except String (String × String × String × String) := do
  let tenantId ← requireEnv env "OUTLOOK_TENANT_ID"
  let clientId ← requireEnv env "OUTLOOK_CLIENT_ID"
  let clientSecret ← requireEnv env "OUTLOOK_CLIENT_SECRET"
  let userId ← requireEnv env "OUTLOOK_USER_ID"
  pure (tenantId, clientId, clientSecret, userId)

/-- `OutlookGraphPollingService.onModuleInit`: same swallowing try/catch
as the Gmail poller. -/
def outlookOnModuleInit (env : EnvMap) : Except String Unit :=
  if isEnabledValue (env "OUTLOOK_API_ENABLED") = false then Except.ok ()
  else
    match outlookResolveConfig env with
    | Except.error _ => Except.ok ()
    | Except.ok _ => Except.ok ()

/-- The throwing part of `MailService.resolveConfig`. -/
def mailResolveConfig (env : EnvMap) : Except String (String × String × String) := do
  let imapUser ← requireEnv env "SOURCE_EMAIL"
  let imapPass ← requireEnv env "SOURCE_APP_PASSWORD"
  let notifyRecipient ← requireEnv env "NOTIFY_RECIPIENT"
  pure (imapUser, imapPass, notifyRecipient)

/-- `MailService.onModuleInit`: `resolveConfig` runs OUTSIDE any
try/catch, `bootstrapSmtpTransport` rethrows a failed SMTP verify, and
the try around `startImapWatcher` logs and rethrows — so all three
failure modes reject the hook. -/
def mailOnModuleInit (env : EnvMap) (smtpVerifyOk imapStartOk : Bool) :
    Except String Unit :=
  if isEnabledValue (env "MAIL_SERVICE_ENABLED") = false then Except.ok ()
  else
    match mailResolveConfig env with
    | Except.error e => Except.error e
    | Except.ok _ =>
      if smtpVerifyOk = false then Except.error "SMTP verify failed"
      else if imapStartOk = false then Except.error "Failed to start IMAP watcher"
      else Except.ok ()

/-- NestJS lifecycle as driven by `main.ts`: run every provider's
`onModuleInit`; the first rejecting hook rejects
`createApplicationContext`, and `bootstrap().catch` calls
`process.exit(1)`, so on error NO source keeps running. -/
def appBootstrap (env : EnvMap) (smtpVerifyOk imapStartOk : Bool) :
    Except String Unit := do
  let _ ← mailOnModuleInit env smtpVerifyOk imapStartOk
  let _ ← gmailOnModuleInit env
  let _ ← outlookOnModuleInit env
  pure ()

/-- A concrete environment: MailService enabled but missing its
SOURCE_EMAIL credential; the Outlook poller enabled and fully
configured. -/
def envMissingSourceEmail : EnvMap := fun key =>
  if key = "MAIL_SERVICE_ENABLED" then some "true"
  else if key = "OUTLOOK_API_ENABLED" then some "true"
  else if key = "OUTLOOK_TENANT_ID" then some "tenant"
  else if key = "OUTLOOK_CLIENT_ID" then some "client"
  else if key = "OUTLOOK_CLIENT_SECRET" then some "secret"
  else if key = "OUTLOOK_USER_ID" then some "user@contoso.com"
  else none

/-- C9 (counterexample): with `envMissingSourceEmail`, the Outlook
poller's own startup succeeds, yet the missing `SOURCE_EMAIL` makes
`MailService.onModuleInit` throw, application bootstrap fails and the
process exits — the sibling source is NOT left running. -/
theorem config_error_aborts_bootstrap_counterexample :
    outlookOnModuleInit envMissingSourceEmail = Except.ok () ∧
    mailOnModuleInit envMissingSourceEmail true true =
      Except.error "Missing required environment variable SOURCE_EMAIL" ∧
    (appBootstrap envMissingSourceEmail true true).isOk = false := by
  refine ⟨rfl, rfl, rfl⟩

/-- C9 (amended): a startup error in the Gmail or Outlook poller —
including a ConfigError from a missing required credential — is caught
inside that source's `onModuleInit`, which therefore never rejects, so
it cannot abort sibling sources; but a ConfigError in `MailService`
(missing `SOURCE_EMAIL`, `SOURCE_APP_PASSWORD` or `NOTIFY_RECIPIENT`
while the service is enabled) escapes `onModuleInit` and aborts the
whole application bootstrap, taking sibling sources down with it. -/
theorem poller_init_error_isolation (env : EnvMap) (smtpVerifyOk imapStartOk : Bool) :
    gmailOnModuleInit env = Except.ok () ∧
    outlookOnModuleInit env = Except.ok () ∧
    (isEnabledValue (env "MAIL_SERVICE_ENABLED") = true →
      (mailResolveConfig env).isOk = false →
      (appBootstrap env smtpVerifyOk imapStartOk).isOk = false) := by
  refine ⟨?_, ?_, ?_⟩
  · unfold gmailOnModuleInit
    by_cases h : isEnabledValue (env "GMAIL_API_ENABLED") = false
    · rw [if_pos h]
    · rw [if_neg h]
      match gmailResolveConfig env with
      | Except.error _ => rfl
      | Except.ok _ => rfl
  · unfold outlookOnModuleInit
    by_cases h : isEnabledValue (env "OUTLOOK_API_ENABLED") = false
    · rw [if_pos h]
    · rw [if_neg h]
      match outlookResolveConfig env with
      | Except.error _ => rfl
      | Except.ok _ => rfl
  · intro henabled hcfg
    have hmail : ∃ e, mailOnModuleInit env smtpVerifyOk imapStartOk = Except.error e := by
      unfold mailOnModuleInit
      rw [if_neg (by rw [henabled]; exact fun hc => Bool.false_ne_true hc.symm)]
      match hres : mailResolveConfig env with
      | Except.error e => exact ⟨e, rfl⟩
      | Except.ok v =>
        rw [hres] at hcfg
        exact absurd hcfg (by simp [Except.isOk, Except.toBool])
    obtain ⟨e, he⟩ := hmail
    unfold appBootstrap
    rw [he]
    rfl

/-- Witness for `poller_init_error_isolation` at `envMissingSourceEmail`. -/
theorem poller_init_error_isolation_witness :
    gmailOnModuleInit envMissingSourceEmail = Except.ok () ∧
    outlookOnModuleInit envMissingSourceEmail = Except.ok () ∧
    (appBootstrap envMissingSourceEmail true true).isOk = false := by
  have h := poller_init_error_isolation envMissingSourceEmail true true
  exact ⟨h.1, h.2.1, h.2.2 (by decide) (by decide)⟩
